import Mathlib

/-!
Shallow embedding of the two OAuth integration adapters
(`backend/integrations/hubspot.py` and `backend/integrations/notion.py`).

JSON values are modelled by the inductive `JVal`; Python exceptions by
`PyExc` and `Except`; the mock redis store by an association list; the
outbound HTTP calls by explicit response parameters (the adapters never
inspect anything about a response beyond its status code and decoded JSON
body).  Machine-level details that the adapters do not depend on (event
loop, float rounding in `int(x)/1000`, unicode beyond ASCII) are modelled
at the granularity the source exercises; each such point is noted at the
definition it concerns.
-/

/-- A decoded JSON value, as produced by Python's `json.loads` /
`response.json()`.  Numbers are modelled as integers: the adapters never
produce or consume fractional JSON numbers. -/
inductive JVal where
  | jnull : JVal
  | jbool (b : Bool) : JVal
  | jnum (n : Int) : JVal
  | jstr (s : String) : JVal
  | jarr (xs : List JVal) : JVal
  | jobj (fields : List (String × JVal)) : JVal

open JVal

/-- Python exceptions that the adapters can raise.  `httpExc` is FastAPI's
`HTTPException`; the others are builtin exception classes. -/
inductive PyExc where
  | httpExc (status : Nat) (detail : String) : PyExc
  | attrError : PyExc
  | typeError : PyExc
  | keyError : PyExc
  | valueError : PyExc
  | netErr (msg : String) : PyExc
deriving DecidableEq

/-- First binding of a key in a JSON object's field list (Python dicts keep
one binding per key, so parsed objects have unique keys). -/
def jfind (fs : List (String × JVal)) (k : String) : Option JVal :=
  (fs.find? (fun p => p.1 = k)).map (fun p => p.2)

/-- Python truthiness (`bool(x)`) on JSON values. -/
def truthy : JVal → Bool
  | jnull => false
  | jbool b => b
  | jnum n => n != 0
  | jstr s => s != ""
  | jarr xs => !xs.isEmpty
  | jobj fs => !fs.isEmpty

/-- `x.get(k, default)` on a Python value: succeeds on a dict, raises
`AttributeError` on anything else (str, list, int, None, ... have no
`.get`). -/
def pyGet (v : JVal) (k : String) (dflt : JVal) : Except PyExc JVal :=
  match v with
  | jobj fs => .ok ((jfind fs k).getD dflt)
  | _ => .error .attrError

/-- `x[k]` with a string key: `KeyError` on a dict without the key,
`TypeError` on a non-dict (list/str/int indexing by str). -/
def pyIndex (v : JVal) (k : String) : Except PyExc JVal :=
  match v with
  | jobj fs =>
    match jfind fs k with
    | some x => .ok x
    | none => .error .keyError
  | _ => .error .typeError

/-- Opening/closing curly braces as characters. -/
def lbrace : Char := Char.ofNat 123

def rbrace : Char := Char.ofNat 125

mutual
/-- `str(x)` on a JSON value.  Containers are rendered in Python's repr
style (strings inside containers carry single quotes); the adapters only
ever format scalars (ids, names) this way. -/
def pyStr : JVal → String
  | jnull => "None"
  | jbool true => "True"
  | jbool false => "False"
  | jnum n => toString n
  | jstr s => s
  | jarr xs => "[" ++ pyStrList xs ++ "]"
  | jobj fs => String.mk [lbrace] ++ pyStrFields fs ++ String.mk [rbrace]

def pyStrList : List JVal → String
  | [] => ""
  | [jstr s] => "'" ++ s ++ "'"
  | [x] => pyStr x
  | jstr s :: xs => "'" ++ s ++ "', " ++ pyStrList xs
  | x :: xs => pyStr x ++ ", " ++ pyStrList xs

def pyStrFields : List (String × JVal) → String
  | [] => ""
  | [(k, jstr s)] => "'" ++ k ++ "': '" ++ s ++ "'"
  | [(k, v)] => "'" ++ k ++ "': " ++ pyStr v
  | (k, jstr s) :: fs => "'" ++ k ++ "': '" ++ s ++ "', " ++ pyStrFields fs
  | (k, v) :: fs => "'" ++ k ++ "': " ++ pyStr v ++ ", " ++ pyStrFields fs
end

/-- Characters Python's `str.strip()` removes. -/
def isPySpace (c : Char) : Bool :=
  c = ' ' || c = Char.ofNat 9 || c = Char.ofNat 10 || c = Char.ofNat 13 ||
  c = Char.ofNat 11 || c = Char.ofNat 12

/-- `s.strip()`. -/
def pyStrip (s : String) : String :=
  String.mk (((s.data.dropWhile isPySpace).reverse.dropWhile isPySpace).reverse)

/-- `s.capitalize()`: first character upper-cased, the rest lower-cased
(ASCII model). -/
def pyCapitalize (s : String) : String :=
  match s.data with
  | [] => ""
  | c :: rest => String.mk (c.toUpper :: rest.map Char.toLower)

/-- Decimal digit run to a number. -/
def digitsVal : List Char → Nat → Nat
  | [], acc => acc
  | c :: rest, acc => digitsVal rest (acc * 10 + (c.toNat - 48))

/-- `int(s)` for a string: optional surrounding whitespace, optional sign,
a nonempty digit run; anything else raises `ValueError` (modelled as
`none`).  Underscore digit separators, accepted by CPython, are not
modelled: the adapters only feed provider timestamps to `int`. -/
def pyIntParse (s : String) : Option Int :=
  let cs := (s.data.dropWhile isPySpace).reverse.dropWhile isPySpace |>.reverse
  let (neg, ds) :=
    match cs with
    | c :: rest => if c = '-' then (true, rest) else if c = '+' then (false, rest) else (false, cs)
    | [] => (false, cs)
  if ds.isEmpty || !ds.all (fun c => c.isDigit) then none
  else some (if neg then -(digitsVal ds 0 : Int) else (digitsVal ds 0 : Int))

/-- `int(x)` where `ValueError`/`TypeError` are treated as failure (the
adapters catch exactly those around their calls to `int`). -/
def pyIntOf (v : JVal) : Option Int :=
  match v with
  | jnum n => some n
  | jbool b => some (if b then 1 else 0)
  | jstr s => pyIntParse s
  | _ => none

/-- `s.replace(old, new)` (all occurrences, left to right). -/
def pyReplaceChars (old new : List Char) (fuel : Nat) (cs : List Char) : List Char :=
  match fuel, cs with
  | 0, cs => cs
  | _, [] => []
  | fuel + 1, c :: rest =>
    if old ≠ [] ∧ old.isPrefixOf (c :: rest) then
      new ++ pyReplaceChars old new fuel ((c :: rest).drop old.length)
    else
      c :: pyReplaceChars old new fuel rest

/-- `s.replace(old, new)` on strings. -/
def pyReplace (s old new : String) : String :=
  String.mk (pyReplaceChars old.data new.data s.data.length s.data)

/-! ### The mock redis store

`MockRedisClient` (identical in both source files) is a Python dict from
string keys to the stored values; every value the adapters store is a
string.  Modelled as an association list with at most one binding per
key; `expire` is accepted and ignored, exactly as in the source. -/

abbrev Store := List (String × String)

/-- `add_key_value_redis` — dict assignment (the `expire` argument is
ignored by the mock, as in the source). -/
def storeSet (st : Store) (k v : String) : Store :=
  if st.any (fun p => p.1 = k) then
    st.map (fun p => if p.1 = k then (k, v) else p)
  else
    st ++ [(k, v)]

/-- `get_value_redis` — `dict.get`. -/
def storeGet (st : Store) (k : String) : Option String :=
  (st.find? (fun p => p.1 = k)).map (fun p => p.2)

/-- `delete_key_redis` — `del` guarded by a membership test. -/
def storeDel (st : Store) (k : String) : Store :=
  st.filter (fun p => p.1 ≠ k)

/-! ### URL-safe base64 (`base64.urlsafe_b64encode` / `urlsafe_b64decode`)

Bytes are naturals below 256.  The decoder is modelled for inputs over the
url-safe alphabet with correct `=` padding — every string the adapters
decode that matters to a successful path is one the encoder produced;
other strings fail (`binascii.Error`, caught by the callers). -/

def b64chars : List Char :=
  ['A', 'B', 'C', 'D', 'E', 'F', 'G', 'H', 'I', 'J', 'K', 'L', 'M',
   'N', 'O', 'P', 'Q', 'R', 'S', 'T', 'U', 'V', 'W', 'X', 'Y', 'Z',
   'a', 'b', 'c', 'd', 'e', 'f', 'g', 'h', 'i', 'j', 'k', 'l', 'm',
   'n', 'o', 'p', 'q', 'r', 's', 't', 'u', 'v', 'w', 'x', 'y', 'z',
   '0', '1', '2', '3', '4', '5', '6', '7', '8', '9', '-', '_']

/-- Sextet to url-safe alphabet character. -/
def sextetChar (n : Nat) : Char := b64chars.getD n '?'

/-- Url-safe alphabet character back to its sextet. -/
def charSextet (c : Char) : Option Nat := b64chars.findIdx? (fun d => d = c)

/-- `base64.urlsafe_b64encode` over byte lists. -/
def b64e : List Nat → List Char
  | [] => []
  | [b1] => [sextetChar (b1 / 4), sextetChar (b1 % 4 * 16), '=', '=']
  | [b1, b2] =>
    [sextetChar (b1 / 4), sextetChar (b1 % 4 * 16 + b2 / 16),
     sextetChar (b2 % 16 * 4), '=']
  | b1 :: b2 :: b3 :: rest =>
    sextetChar (b1 / 4) :: sextetChar (b1 % 4 * 16 + b2 / 16) ::
    sextetChar (b2 % 16 * 4 + b3 / 64) :: sextetChar (b3 % 64) :: b64e rest

/-- `base64.urlsafe_b64decode` over character lists (strict model: an
input must be a sequence of 4-character blocks, `=`-padded only at the
end). -/
def b64d : List Char → Option (List Nat)
  | [] => some []
  | c1 :: c2 :: c3 :: c4 :: rest =>
    if c3 = '=' ∧ c4 = '=' ∧ rest = [] then do
      let s1 ← charSextet c1
      let s2 ← charSextet c2
      pure [s1 * 4 + s2 / 16]
    else if c4 = '=' ∧ rest = [] then do
      let s1 ← charSextet c1
      let s2 ← charSextet c2
      let s3 ← charSextet c3
      pure [s1 * 4 + s2 / 16, s2 % 16 * 16 + s3 / 4]
    else do
      let s1 ← charSextet c1
      let s2 ← charSextet c2
      let s3 ← charSextet c3
      let s4 ← charSextet c4
      let more ← b64d rest
      pure ((s1 * 4 + s2 / 16) :: (s2 % 16 * 16 + s3 / 4) :: (s3 % 4 * 64 + s4) :: more)
  | _ => none

/-- `s.encode()`: UTF-8 bytes of a string; for the ASCII strings the
adapters produce this is the list of code points. -/
def strBytes (s : String) : List Nat := s.data.map Char.toNat

/-- `bytes.decode()` modelled on the ASCII fragment: non-ASCII bytes make
the result unspecified here, so they are mapped to failure; every decode
the adapters perform on a successful path is of ASCII bytes. -/
def asciiDecode (bs : List Nat) : Option String :=
  if bs.all (fun b => b < 128) then some (String.mk (bs.map Char.ofNat)) else none

/-! ### `json.dumps` (default separators, `ensure_ascii=True`) -/

/-- Lower-case hex digit. -/
def hexDigitChar (n : Nat) : Char :=
  if n < 10 then Char.ofNat (48 + n) else Char.ofNat (87 + n)

/-- JSON string escaping of one character, as `json.dumps` performs it on
ASCII input (`ensure_ascii` additionally escapes all non-ASCII; the
`\u00xx` branch here covers the ASCII control range and DEL). -/
def escChar (c : Char) : List Char :=
  if c = '"' then ['\\', '"']
  else if c = '\\' then ['\\', '\\']
  else if c = Char.ofNat 10 then ['\\', 'n']
  else if c = Char.ofNat 13 then ['\\', 'r']
  else if c = Char.ofNat 9 then ['\\', 't']
  else if c = Char.ofNat 8 then ['\\', 'b']
  else if c = Char.ofNat 12 then ['\\', 'f']
  else if c.toNat < 32 ∨ 127 ≤ c.toNat then
    ['\\', 'u', '0', '0', hexDigitChar (c.toNat / 16), hexDigitChar (c.toNat % 16)]
  else [c]

/-- Escaped body of a JSON string literal. -/
def escBody (l : List Char) : List Char := (l.map escChar).flatten

mutual
/-- `json.dumps` with the default separators, as a character list. -/
def dumpChars : JVal → List Char
  | jnull => ['n', 'u', 'l', 'l']
  | jbool true => ['t', 'r', 'u', 'e']
  | jbool false => ['f', 'a', 'l', 's', 'e']
  | jnum n => (toString n).data
  | jstr s => '"' :: escBody s.data ++ ['"']
  | jarr xs => '[' :: dumpArr xs ++ [']']
  | jobj fs => lbrace :: dumpFields fs ++ [rbrace]

def dumpArr : List JVal → List Char
  | [] => []
  | [x] => dumpChars x
  | x :: xs => dumpChars x ++ ',' :: ' ' :: dumpArr xs

def dumpFields : List (String × JVal) → List Char
  | [] => []
  | [(k, v)] => '"' :: escBody k.data ++ '"' :: ':' :: ' ' :: dumpChars v
  | (k, v) :: fs =>
    '"' :: escBody k.data ++ '"' :: ':' :: ' ' :: dumpChars v ++
    ',' :: ' ' :: dumpFields fs
end

/-- `json.dumps(v)`. -/
def jsonDumps (v : JVal) : String := String.mk (dumpChars v)

/-! ### `json.loads`

A recursive-descent parser for the JSON fragment the adapters exchange:
strings with the standard escapes, objects, arrays, integers and the
three literals.  Recursion over nesting is bounded by explicit fuel; the
entry point supplies more fuel than any input could need. -/

/-- JSON whitespace. -/
def isJsonWs (c : Char) : Bool :=
  c = ' ' || c = Char.ofNat 9 || c = Char.ofNat 10 || c = Char.ofNat 13

def skipWs (cs : List Char) : List Char := cs.dropWhile isJsonWs

/-- Hex digit value. -/
def hexVal (c : Char) : Option Nat :=
  if c.isDigit then some (c.toNat - 48)
  else if 'a' ≤ c ∧ c ≤ 'f' then some (c.toNat - 87)
  else if 'A' ≤ c ∧ c ≤ 'F' then some (c.toNat - 55)
  else none

/-- Body of a JSON string literal (after the opening quote): returns the
decoded characters and the remainder after the closing quote. -/
def parseStrBody : List Char → Option (List Char × List Char)
  | [] => none
  | c :: rest =>
    if c = '"' then some ([], rest)
    else if c = '\\' then
      match rest with
      | [] => none
      | e :: rest2 =>
        if e = '"' ∨ e = '\\' ∨ e = '/' then
          (parseStrBody rest2).map (fun p => (e :: p.1, p.2))
        else if e = 'n' then
          (parseStrBody rest2).map (fun p => (Char.ofNat 10 :: p.1, p.2))
        else if e = 'r' then
          (parseStrBody rest2).map (fun p => (Char.ofNat 13 :: p.1, p.2))
        else if e = 't' then
          (parseStrBody rest2).map (fun p => (Char.ofNat 9 :: p.1, p.2))
        else if e = 'b' then
          (parseStrBody rest2).map (fun p => (Char.ofNat 8 :: p.1, p.2))
        else if e = 'f' then
          (parseStrBody rest2).map (fun p => (Char.ofNat 12 :: p.1, p.2))
        else if e = 'u' then
          match rest2 with
          | h1 :: h2 :: h3 :: h4 :: rest3 =>
            match hexVal h1, hexVal h2, hexVal h3, hexVal h4 with
            | some v1, some v2, some v3, some v4 =>
              (parseStrBody rest3).map
                (fun p => (Char.ofNat (((v1 * 16 + v2) * 16 + v3) * 16 + v4) :: p.1, p.2))
            | _, _, _, _ => none
          | _ => none
        else none
    else (parseStrBody rest).map (fun p => (c :: p.1, p.2))

/-- JSON number (integer fragment). -/
def parseNum (cs : List Char) : Option (JVal × List Char) :=
  match cs with
  | '-' :: rest =>
    let ds := rest.takeWhile (fun c => c.isDigit)
    if ds.isEmpty then none
    else some (jnum (-(digitsVal ds 0 : Int)), rest.dropWhile (fun c => c.isDigit))
  | _ =>
    let ds := cs.takeWhile (fun c => c.isDigit)
    if ds.isEmpty then none
    else some (jnum (digitsVal ds 0 : Int), cs.dropWhile (fun c => c.isDigit))

mutual
/-- One JSON value (leading whitespace allowed); `fuel` bounds the total
number of composite parsing steps. -/
def parseVal : Nat → List Char → Option (JVal × List Char)
  | 0, _ => none
  | fuel + 1, cs =>
    match skipWs cs with
    | [] => none
    | c :: rest =>
      if c = '"' then
        (parseStrBody rest).map (fun p => (jstr (String.mk p.1), p.2))
      else if c = lbrace then
        match skipWs rest with
        | d :: r2 =>
          if d = rbrace then some (jobj [], r2)
          else (parseFields fuel (skipWs rest)).map (fun p => (jobj p.1, p.2))
        | [] => none
      else if c = '[' then
        match skipWs rest with
        | d :: r2 =>
          if d = ']' then some (jarr [], r2)
          else (parseElems fuel (skipWs rest)).map (fun p => (jarr p.1, p.2))
        | [] => none
      else
        match c :: rest with
        | 't' :: 'r' :: 'u' :: 'e' :: r => some (jbool true, r)
        | 'f' :: 'a' :: 'l' :: 's' :: 'e' :: r => some (jbool false, r)
        | 'n' :: 'u' :: 'l' :: 'l' :: r => some (jnull, r)
        | other => parseNum other

/-- Nonempty member list of a JSON object, up to and including the
closing brace. -/
def parseFields : Nat → List Char → Option (List (String × JVal) × List Char)
  | 0, _ => none
  | fuel + 1, cs =>
    match skipWs cs with
    | q :: rest =>
      if q = '"' then
        match parseStrBody rest with
        | some (k, r1) =>
          match skipWs r1 with
          | c2 :: r2 =>
            if c2 = ':' then
              match parseVal fuel r2 with
              | some (v, r3) =>
                match skipWs r3 with
                | sep :: r4 =>
                  if sep = ',' then
                    (parseFields fuel r4).map
                      (fun p => ((String.mk k, v) :: p.1, p.2))
                  else if sep = rbrace then some ([(String.mk k, v)], r4)
                  else none
                | [] => none
              | none => none
            else none
          | [] => none
        | none => none
      else none
    | [] => none

/-- Nonempty element list of a JSON array, up to and including the
closing bracket. -/
def parseElems : Nat → List Char → Option (List JVal × List Char)
  | 0, _ => none
  | fuel + 1, cs =>
    match parseVal fuel cs with
    | some (v, r1) =>
      match skipWs r1 with
      | sep :: r2 =>
        if sep = ',' then
          (parseElems fuel r2).map (fun p => (v :: p.1, p.2))
        else if sep = ']' then some ([v], r2)
        else none
      | [] => none
    | none => none
end

/-- `json.loads(s)`: parse one value, allow trailing whitespace, reject
anything else.  The fuel supplied strictly exceeds what parsing `s` can
consume. -/
def jsonLoads (s : String) : Option JVal :=
  match parseVal (s.data.length + 1) s.data with
  | some (v, rest) => if (skipWs rest).isEmpty then some v else none
  | none => none

/-! ### Timestamps

The canonical instant type is milliseconds since the Unix epoch (UTC).
`datetime.fromtimestamp(secs)` denotes the instant `secs` seconds after
the epoch (the adapters run with the server clock taken as UTC, and the
spec's canonical timestamps are the denoted instants), so the HubSpot
path `int(ms_string) / 1000` carries the instant `ms_string`
milliseconds after the epoch. -/

/-- Days from 1970-01-01 to year/month/day of the proleptic Gregorian
calendar (civil-from-days algorithm), for year ≥ 1. -/
def daysFromCivil (y mo d : Nat) : Int :=
  let y' := if mo ≤ 2 then y - 1 else y
  let era := y' / 400
  let yoe := y' % 400
  let mp := if 2 < mo then mo - 3 else mo + 9
  let doy := (153 * mp + 2) / 5 + d - 1
  let doe := yoe * 365 + yoe / 4 - yoe / 100 + doy
  (era * 146097 + doe : Int) - 719468

/-- Epoch milliseconds of a UTC civil date-time. -/
def epochMsUTC (y mo d h mi s ms : Nat) : Int :=
  (daysFromCivil y mo d * 86400 + h * 3600 + mi * 60 + s) * 1000 + ms

/-- Exactly `n` decimal digits. -/
def parseDigits : Nat → List Char → Option (Nat × List Char)
  | 0, cs => some (0, cs)
  | _ + 1, [] => none
  | n + 1, c :: rest =>
    if c.isDigit then
      (parseDigits n rest).map (fun p => (p.1 + (c.toNat - 48) * 10 ^ n, p.2))
    else none

/-- One expected character. -/
def expectChar (c : Char) : List Char → Option (List Char)
  | [] => none
  | d :: rest => if d = c then some rest else none

/-- Optional fraction `.fff` or `.ffffff`, in milliseconds (truncating
microseconds to milliseconds loses nothing on the adapters' inputs). -/
def parseIsoFrac (cs : List Char) : Option (Nat × List Char) :=
  match cs with
  | '.' :: rest =>
    match parseDigits 3 rest with
    | some (f3, r3) =>
      match parseDigits 3 r3 with
      | some (f6, r6) => some ((f3 * 1000 + f6) / 1000, r6)
      | none => some (f3, r3)
    | none => none
  | _ => some (0, cs)

/-- Optional UTC offset `+HH:MM` / `-HH:MM`, in minutes. -/
def parseIsoOffset (cs : List Char) : Option (Int × List Char) :=
  match cs with
  | c :: rest =>
    if c = '+' ∨ c = '-' then
      match parseDigits 2 rest with
      | some (oh, r1) =>
        match expectChar ':' r1 with
        | some r2 =>
          match parseDigits 2 r2 with
          | some (om, r3) =>
            let mins : Int := oh * 60 + om
            some (if c = '-' then -mins else mins, r3)
          | none => none
        | none => none
      | none => none
    else none
  | [] => none

/-- `datetime.fromisoformat`, modelled on the formats the Notion adapter
can feed it after `replace("Z", "+00:00")`:
`YYYY-MM-DD[<sep>HH:MM[:SS[.fff[fff]]][±HH:MM]]`.  The result is the
denoted instant in epoch milliseconds (a naive result is taken at UTC,
consistently with the `fromtimestamp` model).  Failure models the
`ValueError` the source catches. -/
def fromIsoEpochMs (s : String) : Option Int := do
  let cs := s.data
  let (y, r1) ← parseDigits 4 cs
  let r2 ← expectChar '-' r1
  let (mo, r3) ← parseDigits 2 r2
  let r4 ← expectChar '-' r3
  let (d, r5) ← parseDigits 2 r4
  if y < 1 ∨ mo < 1 ∨ 12 < mo ∨ d < 1 ∨ 31 < d then none
  else
    match r5 with
    | [] => some (epochMsUTC y mo d 0 0 0 0)
    | _ :: r6 => do
      let (h, r7) ← parseDigits 2 r6
      let r8 ← expectChar ':' r7
      let (mi, r9) ← parseDigits 2 r8
      if 23 < h ∨ 59 < mi then none
      else do
        let (sec, r10) ←
          match r9 with
          | ':' :: r9a => do
            let (sec, r10) ← parseDigits 2 r9a
            if 59 < sec then none else some (sec, r10)
          | _ => some (0, r9)
        let (ms, r11) ← parseIsoFrac r10
        let (offMin, r12) ←
          match r11 with
          | [] => some ((0 : Int), ([] : List Char))
          | _ => parseIsoOffset r11
        if r12 = [] then
          some (epochMsUTC y mo d h mi sec ms - offMin * 60000)
        else none

/-! ### `IntegrationItem`

The record class lives in `integrations/integration_item.py`, which is
not among the sources; modelled from the spec: NormalizedItem with
id/type/name, optional creation and modification timestamps, optional
url, and a visibility flag.  The Python class does not coerce its
arguments, so `type` and `name` hold whatever JSON value the call site
passes (the adapters pass strings on well-formed inputs). -/
structure IntegrationItem where
  id : String
  type : JVal
  name : JVal
  creation_time : Option Int
  last_modified_time : Option Int
  url : Option String
  visibility : Bool

/-! ### HubSpot normalizer (`create_integration_item_metadata_object`) -/

/-- `hubspot.create_integration_item_metadata_object(response_json,
item_type)`.  Exceptions the source does not catch (`AttributeError`
from `.get` on a non-dict) propagate as `.error`; `int` parse failures
are caught there and degrade to a missing timestamp. -/
def create_integration_item_metadata_object_hubspot
    (response_json : JVal) (item_type : String := "contact") :
    Except PyExc IntegrationItem := do
  let item_id ← pyGet response_json "id" jnull
  let properties ← pyGet response_json "properties" (jobj [])
  let name ←
    if item_type = "contact" then do
      let first_name ← pyGet properties "firstname" (jstr "")
      let last_name ← pyGet properties "lastname" (jstr "")
      let joined := pyStrip (pyStr first_name ++ " " ++ pyStr last_name)
      if joined ≠ "" then pure (jstr joined)
      else pyGet properties "email" (jstr "Unknown Contact")
    else if item_type = "company" then
      pyGet properties "name" (jstr "Unknown Company")
    else if item_type = "deal" then
      pyGet properties "dealname" (jstr "Unknown Deal")
    else
      pure (jstr "Unknown Item")
  let createdate ← pyGet properties "createdate" jnull
  let creation_time := if truthy createdate then pyIntOf createdate else none
  let lastmodified ← pyGet properties "hs_lastmodifieddate" jnull
  let last_modified_time := if truthy lastmodified then pyIntOf lastmodified else none
  pure
    { id := pyStr item_id
      type := jstr item_type
      name := name
      creation_time := creation_time
      last_modified_time := last_modified_time
      url :=
        if item_type = "contact" then
          some ("https://app.hubspot.com/contacts/" ++ pyStr item_id)
        else none
      visibility := true }

/-! ### Notion normalizer -/

/-- The name-extraction loop over `response_json["properties"].values()`:
first property whose `type` is `"title"` and whose `title` value is a
nonempty list contributes `title[0].get("plain_text")`; the loop result
is `None` when no such property exists.  `.get` on a non-dict raises. -/
def notionNameLoop : List JVal → Except PyExc JVal
  | [] => pure jnull
  | prop :: rest => do
    let t ← pyGet prop "type" jnull
    let isTitle : Bool := match t with | jstr s => s = "title" | _ => false
    if isTitle then
      let title_arr ← pyGet prop "title" (jarr [])
      match title_arr with
      | jarr (x :: _) => pyGet x "plain_text" jnull
      | _ => notionNameLoop rest
    else notionNameLoop rest

/-- `notion.create_integration_item_metadata_object(response_json)`.
Timestamp parsing (`.replace` then `fromisoformat`) sits in a catch-all
`try`, so a non-string or unparsable value degrades to `None`; the name
loop and `capitalize` do not, so their exceptions propagate. -/
def create_integration_item_metadata_object_notion (response_json : JVal) :
    Except PyExc IntegrationItem := do
  let item_id ← pyGet response_json "id" jnull
  let obj_type ← pyGet response_json "object" (jstr "unknown")
  let nameFound ←
    match response_json with
    | jobj fs =>
      match jfind fs "properties" with
      | some (jobj pfs) => notionNameLoop (pfs.map (fun p => p.2))
      | some _ => Except.error PyExc.attrError
      | none => pure jnull
    | _ => pure jnull
  let name ←
    if truthy nameFound then pure nameFound
    else
      match obj_type with
      | jstr s => pure (jstr (pyCapitalize s ++ " Item"))
      | _ => Except.error PyExc.attrError
  let created_time ← pyGet response_json "created_time" jnull
  let last_edited_time ← pyGet response_json "last_edited_time" jnull
  let creation_time :=
    if truthy created_time then
      match created_time with
      | jstr s => fromIsoEpochMs (pyReplace s "Z" "+00:00")
      | _ => none
    else none
  let last_modified_time :=
    if truthy last_edited_time then
      match last_edited_time with
      | jstr s => fromIsoEpochMs (pyReplace s "Z" "+00:00")
      | _ => none
    else none
  pure
    { id := pyStr item_id
      type := obj_type
      name := name
      creation_time := creation_time
      last_modified_time := last_modified_time
      url := none
      visibility := true }

/-! ### HTTP collaborator

The adapters look only at `response.status_code` and `response.json()`;
an outbound call is therefore modelled by its outcome: a network-level
exception (message) or a status code together with the decoded JSON
body. -/

structure HttpResp where
  status : Nat
  body : JVal

abbrev HttpResult := Except String HttpResp

/-- Credentials as accepted by `get_items_*`: a raw JSON string or an
already-decoded value. -/
inductive CredInput where
  | rawStr (s : String) : CredInput
  | decoded (v : JVal) : CredInput

/-- The `isinstance(credentials, str)` branch: `json.loads` on a string
(its `ValueError` on unparsable input is not caught there). -/
def credDecode : CredInput → Except PyExc JVal
  | .rawStr s =>
    match jsonLoads s with
    | some v => .ok v
    | none => .error .valueError
  | .decoded v => .ok v

/-! ### HubSpot aggregator (`get_items_hubspot`) -/

/-- The per-category result loop: each fetched object is normalized and
appended; an exception from the normalizer is caught by the category's
`try`, so the items appended before it survive and the rest of the
category is dropped. -/
def appendItems (item_type : String) (acc : List IntegrationItem) :
    List JVal → List IntegrationItem
  | [] => acc
  | r :: rest =>
    match create_integration_item_metadata_object_hubspot r item_type with
    | .ok it => appendItems item_type (acc ++ [it]) rest
    | .error _ => acc

/-- One HubSpot category block (its own `try`/`except` plus the status
check).  A network exception, a non-200 status, a non-dict body or a
non-list `results` value all leave the accumulator as it was: the
failure is printed and swallowed.  (A non-list `results` iterates
keys/characters in Python, whose normalization raises on the first
element inside the same `try`; the accumulator is unchanged either
way.) -/
def runCategoryHubspot (acc : List IntegrationItem) (resp : HttpResult)
    (item_type : String) : List IntegrationItem :=
  match resp with
  | .error _ => acc
  | .ok r =>
    if r.status = 200 then
      match r.body with
      | jobj fs =>
        match (jfind fs "results").getD (jarr []) with
        | jarr rs => appendItems item_type acc rs
        | _ => acc
      | _ => acc
    else acc

/-- Responses of the three HubSpot category fetches (contacts, companies,
deals — the order the source issues them in). -/
structure HubspotEnv where
  contacts : HttpResult
  companies : HttpResult
  deals : HttpResult

/-- `get_items_hubspot(credentials)`.  The credential decode and the
`.get("access_token")` are outside any `try` and can raise; everything
per-category is fault-isolated. -/
def get_items_hubspot (env : HubspotEnv) (credentials : CredInput) :
    Except PyExc (List IntegrationItem) := do
  let creds ← credDecode credentials
  let access_token ← pyGet creds "access_token" jnull
  if ¬ truthy access_token then pure []
  else
    let l1 := runCategoryHubspot [] env.contacts "contact"
    let l2 := runCategoryHubspot l1 env.companies "company"
    let l3 := runCategoryHubspot l2 env.deals "deal"
    pure l3

/-! ### Notion aggregator (`get_items_notion`) -/

/-- The Notion result loop has no surrounding `try`: a normalizer
exception propagates out of `get_items_notion`. -/
def notionItems (acc : List IntegrationItem) :
    List JVal → Except PyExc (List IntegrationItem)
  | [] => pure acc
  | r :: rest => do
    let it ← create_integration_item_metadata_object_notion r
    notionItems (acc ++ [it]) rest

/-- `get_items_notion(credentials)`.  No `try` anywhere: a network
exception propagates; a non-200 status only prints and yields the (empty)
accumulated list; a body whose `results` is not a list iterates its
keys/characters and the first normalization raises. -/
def get_items_notion (env : HttpResult) (credentials : CredInput) :
    Except PyExc (List IntegrationItem) := do
  let creds ← credDecode credentials
  let access_token ← pyGet creds "access_token" jnull
  if ¬ truthy access_token then pure []
  else
    match env with
    | .error e => .error (.netErr e)
    | .ok r =>
      if r.status = 200 then
        match r.body with
        | jobj fs =>
          match (jfind fs "results").getD (jarr []) with
          | jarr rs => notionItems [] rs
          | _ => .error .typeError
        | _ => .error .attrError
      else pure []

/-! ### Credential retrieval -/

/-- Key under which a HubSpot token record is stored. -/
def hubspotTokensKey (org_id user_id : String) : String :=
  "hubspot_tokens:" ++ org_id ++ ":" ++ user_id

/-- Key under which the HubSpot state is stored. -/
def hubspotStateKey (org_id user_id : String) : String :=
  "hubspot_state:" ++ org_id ++ ":" ++ user_id

/-- Key under which a Notion token record is stored. -/
def notionTokensKey (org_id user_id : String) : String :=
  "notion_tokens:" ++ org_id ++ ":" ++ user_id

/-- Key under which the Notion state is stored. -/
def notionStateKey (org_id user_id : String) : String :=
  "notion_state:" ++ org_id ++ ":" ++ user_id

/-- `get_hubspot_credentials(user_id, org_id)`: HTTP 401 when nothing
truthy is stored, otherwise `json.loads` of the stored string (whose
`ValueError` on a corrupt record is not caught). -/
def get_hubspot_credentials (user_id org_id : String) (store : Store) :
    Except PyExc JVal :=
  match storeGet store (hubspotTokensKey org_id user_id) with
  | none => .error (.httpExc 401 "No credentials found")
  | some s =>
    if s = "" then .error (.httpExc 401 "No credentials found")
    else
      match jsonLoads s with
      | some v => .ok v
      | none => .error .valueError

/-- `get_notion_credentials(user_id, org_id)`: `None` when nothing truthy
is stored, otherwise `json.loads` of the stored string. -/
def get_notion_credentials (user_id org_id : String) (store : Store) :
    Except PyExc (Option JVal) :=
  match storeGet store (notionTokensKey org_id user_id) with
  | none => .ok none
  | some s =>
    if s = "" then .ok none
    else
      match jsonLoads s with
      | some v => .ok (some v)
      | none => .error .valueError

/-! ### Authorization initiators -/

/-- The state payload both adapters build: a random url-safe token plus
the caller's identifiers, in this insertion order. -/
def stateObj (token user_id org_id : String) : JVal :=
  jobj [("state", jstr token), ("user_id", jstr user_id), ("org_id", jstr org_id)]

/-- `notion.encode_state(user_id, org_id)` (and the identical inline code
of `authorize_hubspot`): url-safe base64 of the JSON serialization.  The
random token from `secrets.token_urlsafe(32)` is passed in explicitly. -/
def encode_state (token user_id org_id : String) : String :=
  String.mk (b64e (strBytes (jsonDumps (stateObj token user_id org_id))))

/-- `authorize_hubspot(user_id, org_id)`: persists the encoded state and
returns the authorization URL carrying it.  `CLIENT_ID`/`REDIRECT_URI`
come from the environment and are opaque here. -/
def authorize_hubspot (token user_id org_id clientId redirectUri : String)
    (store : Store) : String × Store :=
  let encoded_state := encode_state token user_id org_id
  let store' := storeSet store (hubspotStateKey org_id user_id) encoded_state
  ("https://app.hubspot.com/oauth/authorize?client_id=" ++ clientId ++
    "&redirect_uri=" ++ redirectUri ++
    "&scope=crm.objects.contacts.read crm.objects.companies.read crm.objects.deals.read oauth" ++
    "&state=" ++ encoded_state, store')

/-- `authorize_notion(user_id, org_id)`. -/
def authorize_notion (token user_id org_id clientId redirectUri : String)
    (store : Store) : String × Store :=
  let encoded_state := encode_state token user_id org_id
  let store' := storeSet store (notionStateKey org_id user_id) encoded_state
  ("https://api.notion.com/v1/oauth/authorize?client_id=" ++ clientId ++
    "&response_type=code&owner=user&redirect_uri=" ++ redirectUri ++
    "&state=" ++ encoded_state, store')

/-! ### Callback handlers -/

/-- The query parameters of the incoming redirect request. -/
structure CallbackReq where
  error : Option String
  code : Option String
  state : Option String

/-- Truthiness of `request.query_params.get(k)`: present and nonempty. -/
def optTruthy : Option String → Bool
  | none => false
  | some s => s != ""

/-- The decode both callbacks perform:
`json.loads(base64.urlsafe_b64decode(encoded_state).decode())`, with any
exception collapsed to failure (the source catches them all and raises
`Invalid state`). -/
def decodeState (encoded_state : String) : Option JVal :=
  (b64d encoded_state.data).bind (fun bs => (asciiDecode bs).bind jsonLoads)

/-- The HTML page `oauth2callback_hubspot` returns on success. -/
def hubspotSuccessHtml : String :=
  "<html><head><script>window.opener.postMessage(hubspot-auth-success);" ++
  "window.close();</script></head>" ++
  "<body><p>HubSpot authentication successful. You can close this window.</p></body></html>"

/-- The HTML page `oauth2callback_notion` returns on success. -/
def notionCloseHtml : String :=
  "<html><script>window.close();</script></html>"

/-- `oauth2callback_hubspot(request)`.  The token-endpoint POST is the
`tokenResp` parameter.  The source's stored-state comparison is present
only as a comment, so none is performed here either; the state payload's
`org_id`/`user_id` are read by subscription only when the token record is
stored (a `KeyError`/`TypeError` there propagates, still before any
write). -/
def oauth2callback_hubspot (req : CallbackReq) (tokenResp : HttpResult)
    (store : Store) : Except PyExc String × Store :=
  if optTruthy req.error then
    (.error (.httpExc 400 (req.error.getD "")), store)
  else if ¬ optTruthy req.code ∨ ¬ optTruthy req.state then
    (.error (.httpExc 400 "Missing code or state"), store)
  else
    let encoded_state := req.state.getD ""
    match decodeState encoded_state with
    | none => (.error (.httpExc 400 "Invalid state"), store)
    | some state_data =>
      match tokenResp with
      | .error e => (.error (.netErr e), store)
      | .ok resp =>
        if resp.status ≠ 200 then
          (.error (.httpExc 400 "Failed to exchange code for tokens"), store)
        else
          match pyIndex state_data "org_id" with
          | .error e => (.error e, store)
          | .ok oid =>
            match pyIndex state_data "user_id" with
            | .error e => (.error e, store)
            | .ok uid =>
              (.ok hubspotSuccessHtml,
                storeSet store (hubspotTokensKey (pyStr oid) (pyStr uid))
                  (jsonDumps resp.body))

/-- `oauth2callback_notion(request)`.  Unlike the HubSpot path this one
re-fetches the persisted state and compares it to the incoming value
before exchanging the code; on success it stores the token record and
deletes the state key. -/
def oauth2callback_notion (req : CallbackReq) (tokenResp : HttpResult)
    (store : Store) : Except PyExc String × Store :=
  if optTruthy req.error then
    (.error (.httpExc 400 (req.error.getD "")), store)
  else if ¬ optTruthy req.code ∨ ¬ optTruthy req.state then
    (.error (.httpExc 400 "Missing code or state"), store)
  else
    let encoded_state := req.state.getD ""
    match decodeState encoded_state with
    | none => (.error (.httpExc 400 "Invalid state"), store)
    | some state_data =>
      match pyGet state_data "user_id" jnull with
      | .error e => (.error e, store)
      | .ok uid =>
        match pyGet state_data "org_id" jnull with
        | .error e => (.error e, store)
        | .ok oid =>
          let stateKey := notionStateKey (pyStr oid) (pyStr uid)
          let stateOk : Bool :=
            match storeGet store stateKey with
            | none => false
            | some s => s != "" && s = encoded_state
          if ¬ stateOk then
            (.error (.httpExc 400 "State does not match"), store)
          else
            match tokenResp with
            | .error e => (.error (.netErr e), store)
            | .ok resp =>
              if resp.status ≠ 200 then
                (.error (.httpExc 400 "Failed to exchange code for tokens"), store)
              else
                let store1 :=
                  storeSet store (notionTokensKey (pyStr oid) (pyStr uid))
                    (jsonDumps resp.body)
                let store2 := storeDel store1 stateKey
                (.ok notionCloseHtml, store2)

/-! ## Claim theorems -/

/-- C1.  The spec demands that a callback whose `state` differs from (or
has no counterpart among) the persisted state keys fail with
StateMismatch and write nothing, for both providers.  The HubSpot
handler's stored-state comparison is commented out: with an empty store
(so the incoming state matches no persisted state), a decodable state and
a successful token exchange, `oauth2callback_hubspot` succeeds and writes
the token record. -/
theorem C1_hubspot_callback_accepts_unpersisted_state :
    (oauth2callback_hubspot
        ⟨none, some "c", some (encode_state "x" "u" "o")⟩
        (.ok ⟨200, jobj [("access_token", jstr "tok")]⟩) []).1 =
      .ok hubspotSuccessHtml ∧
    storeGet (oauth2callback_hubspot
        ⟨none, some "c", some (encode_state "x" "u" "o")⟩
        (.ok ⟨200, jobj [("access_token", jstr "tok")]⟩) []).2
        (hubspotTokensKey "o" "u") =
      some (jsonDumps (jobj [("access_token", jstr "tok")])) :=
  ⟨rfl, rfl⟩

/-- C2.  The spec demands that after a successful callback the state key
be absent for both providers.  `oauth2callback_hubspot` never deletes the
state key: starting from a store holding exactly the persisted state that
the incoming request carries, the callback succeeds, writes the token
record, and the state key is still present afterwards. -/
theorem C2_hubspot_callback_success_leaves_state_key :
    (oauth2callback_hubspot
        ⟨none, some "c", some (encode_state "x" "u" "o")⟩
        (.ok ⟨200, jobj [("access_token", jstr "tok")]⟩)
        [(hubspotStateKey "o" "u", encode_state "x" "u" "o")]).1 =
      .ok hubspotSuccessHtml ∧
    storeGet (oauth2callback_hubspot
        ⟨none, some "c", some (encode_state "x" "u" "o")⟩
        (.ok ⟨200, jobj [("access_token", jstr "tok")]⟩)
        [(hubspotStateKey "o" "u", encode_state "x" "u" "o")]).2
        (hubspotStateKey "o" "u") =
      some (encode_state "x" "u" "o") ∧
    storeGet (oauth2callback_hubspot
        ⟨none, some "c", some (encode_state "x" "u" "o")⟩
        (.ok ⟨200, jobj [("access_token", jstr "tok")]⟩)
        [(hubspotStateKey "o" "u", encode_state "x" "u" "o")]).2
        (hubspotTokensKey "o" "u") =
      some (jsonDumps (jobj [("access_token", jstr "tok")])) :=
  ⟨rfl, rfl, rfl⟩

/-- C6.  A HubSpot object whose `createdate` is the epoch-millisecond
string `"1700000000000"` and a Notion object whose `created_time` is
`"2023-11-14T22:13:20.000Z"` both normalize to the canonical instant
2023-11-14 22:13:20 UTC, i.e. 1700000000000 ms after the epoch, in the
single canonical timestamp type (epoch milliseconds). -/
theorem C6_timestamp_normalization_canonical_instant :
    ((create_integration_item_metadata_object_hubspot
        (jobj [("id", jstr "1"),
               ("properties", jobj [("createdate", jstr "1700000000000")])])
        "contact").map (fun it => it.creation_time)) =
      .ok (some (epochMsUTC 2023 11 14 22 13 20 0)) ∧
    ((create_integration_item_metadata_object_notion
        (jobj [("id", jstr "1"),
               ("created_time", jstr "2023-11-14T22:13:20.000Z")])).map
        (fun it => it.creation_time)) =
      .ok (some (epochMsUTC 2023 11 14 22 13 20 0)) ∧
    epochMsUTC 2023 11 14 22 13 20 0 = 1700000000000 :=
  ⟨rfl, rfl, rfl⟩

/-- C7.  The spec demands the normalizers never fail, degrading any field
extraction error to a default.  Both can raise: a HubSpot object whose
`properties` is a string makes `properties.get` raise `AttributeError`,
and a Notion object whose `object` field is a number makes
`obj_type.capitalize()` raise `AttributeError`; neither is caught. -/
theorem C7_normalizer_raises_on_malformed_input :
    create_integration_item_metadata_object_hubspot
        (jobj [("id", jstr "1"), ("properties", jstr "bad")]) "contact" =
      .error .attrError ∧
    create_integration_item_metadata_object_notion (jobj [("object", jnum 5)]) =
      .error .attrError :=
  ⟨rfl, rfl⟩

/-- C4.  Credentials lacking an `access_token` field — whether passed as a
decoded object or as a JSON string decoding to that object — make both
aggregators return the empty list without raising. -/
theorem C4_get_items_no_access_token_empty
    (env : HubspotEnv) (envN : HttpResult) (fs : List (String × JVal))
    (h : jfind fs "access_token" = none) :
    get_items_hubspot env (.decoded (jobj fs)) = .ok [] ∧
    get_items_notion envN (.decoded (jobj fs)) = .ok [] ∧
    (∀ s, jsonLoads s = some (jobj fs) →
      get_items_hubspot env (.rawStr s) = .ok [] ∧
      get_items_notion envN (.rawStr s) = .ok []) := by
  refine ⟨?_, ?_, fun s hs => ⟨?_, ?_⟩⟩ <;>
    simp [get_items_hubspot, get_items_notion, credDecode, pyGet, truthy,
      Bind.bind, Except.bind, pure, Except.pure, h, *]

/-- Witness for C4 at concrete inputs. -/
theorem C4_get_items_no_access_token_empty_witness :
    get_items_hubspot ⟨.error "e", .error "e", .error "e"⟩ (.decoded (jobj [])) =
      .ok [] ∧
    get_items_notion (.error "e") (.rawStr "\x7b\x7d") = .ok [] :=
  ⟨(C4_get_items_no_access_token_empty ⟨.error "e", .error "e", .error "e"⟩
      (.error "e") [] rfl).1,
   ((C4_get_items_no_access_token_empty ⟨.error "e", .error "e", .error "e"⟩
      (.error "e") [] rfl).2.2 "\x7b\x7d" rfl).2⟩

/-- C9.  With nothing stored under the token key,
`get_hubspot_credentials` fails with HTTP 401 while
`get_notion_credentials` returns `None`; with a stored (nonempty,
decodable) token record both return the decoded record. -/
theorem C9_credential_retrieval (user_id org_id : String) (store : Store) :
    (storeGet store (hubspotTokensKey org_id user_id) = none →
      get_hubspot_credentials user_id org_id store =
        .error (.httpExc 401 "No credentials found")) ∧
    (storeGet store (notionTokensKey org_id user_id) = none →
      get_notion_credentials user_id org_id store = .ok none) ∧
    (∀ s v, storeGet store (hubspotTokensKey org_id user_id) = some s →
      s ≠ "" → jsonLoads s = some v →
      get_hubspot_credentials user_id org_id store = .ok v) ∧
    (∀ s v, storeGet store (notionTokensKey org_id user_id) = some s →
      s ≠ "" → jsonLoads s = some v →
      get_notion_credentials user_id org_id store = .ok (some v)) := by
  refine ⟨fun h => ?_, fun h => ?_,
    fun s v h1 h2 h3 => ?_, fun s v h1 h2 h3 => ?_⟩ <;>
    simp [get_hubspot_credentials, get_notion_credentials, *]

/-- Witness for C9 at concrete inputs. -/
theorem C9_credential_retrieval_witness :
    get_hubspot_credentials "u" "o" [] =
      .error (.httpExc 401 "No credentials found") ∧
    get_notion_credentials "u" "o" [] = .ok none ∧
    get_hubspot_credentials "u" "o"
        [(hubspotTokensKey "o" "u", "\x7b\"access_token\": \"t\"\x7d"),
         (notionTokensKey "o" "u", "\x7b\"access_token\": \"t\"\x7d")] =
      .ok (jobj [("access_token", jstr "t")]) ∧
    get_notion_credentials "u" "o"
        [(hubspotTokensKey "o" "u", "\x7b\"access_token\": \"t\"\x7d"),
         (notionTokensKey "o" "u", "\x7b\"access_token\": \"t\"\x7d")] =
      .ok (some (jobj [("access_token", jstr "t")])) :=
  ⟨(C9_credential_retrieval "u" "o" []).1 rfl,
   (C9_credential_retrieval "u" "o" []).2.1 rfl,
   (C9_credential_retrieval "u" "o" _).2.2.1 _ _ rfl (by decide) rfl,
   (C9_credential_retrieval "u" "o" _).2.2.2 _ _ rfl (by decide) rfl⟩

/-- C10.  Whenever a callback handler fails — any error path of either
provider — the store is left exactly as it was: nothing is written and
nothing is deleted. -/
theorem C10_callback_failure_atomic
    (req : CallbackReq) (tokenResp : HttpResult) (store : Store) :
    (∀ e, (oauth2callback_hubspot req tokenResp store).1 = .error e →
      (oauth2callback_hubspot req tokenResp store).2 = store) ∧
    (∀ e, (oauth2callback_notion req tokenResp store).1 = .error e →
      (oauth2callback_notion req tokenResp store).2 = store) := by
  refine ⟨fun e h => ?_, fun e h => ?_⟩
  · unfold oauth2callback_hubspot at h ⊢
    rcases hds : decodeState (req.state.getD "") with _ | sd <;>
      simp only [hds] at h ⊢ <;> repeat' split at h
    all_goals (first | rfl | simp_all)
  · unfold oauth2callback_notion at h ⊢
    rcases hds : decodeState (req.state.getD "") with _ | sd <;>
      simp only [hds] at h ⊢ <;> repeat' split at h
    all_goals (first | rfl | simp_all)

/-- Witness for C10: a denied authorization leaves a nonempty store
untouched, for both providers. -/
theorem C10_callback_failure_atomic_witness :
    (oauth2callback_hubspot ⟨some "denied", none, none⟩ (.error "net")
        [("k", "v")]).2 = [("k", "v")] ∧
    (oauth2callback_notion ⟨some "denied", none, none⟩ (.error "net")
        [("k", "v")]).2 = [("k", "v")] :=
  ⟨(C10_callback_failure_atomic _ _ _).1 (.httpExc 400 "denied") rfl,
   (C10_callback_failure_atomic _ _ _).2 (.httpExc 400 "denied") rfl⟩

/-- The Notion name loop yields `None` when every property value is a
dict whose `type` is not `"title"`. -/
theorem notionNameLoop_noTitle (vs : List JVal)
    (h : ∀ v ∈ vs, ∃ vf, v = jobj vf ∧ jfind vf "type" ≠ some (jstr "title")) :
    notionNameLoop vs = .ok jnull := by
  induction vs with
  | nil => rfl
  | cons v rest ih =>
    obtain ⟨vf, rfl, hv⟩ := h v (List.mem_cons_self v rest)
    have hrest := ih (fun w hw => h w (List.mem_cons_of_mem _ hw))
    rcases hx : jfind vf "type" with _ | x
    · simp [notionNameLoop, pyGet, Bind.bind, Except.bind, hx, hrest]
    · have hx' : x ≠ jstr "title" := fun hh => hv (by rw [hx, hh])
      cases x <;>
        simp_all [notionNameLoop, pyGet, Bind.bind, Except.bind, hx, hrest]

/-- C8.  Name fallbacks: a HubSpot contact whose properties lack
`firstname`, `lastname` and `email` is named `"Unknown Contact"`; a
Notion object with no title-typed property is named by capitalizing its
object type and appending `" Item"`, which with no `object` field at all
gives `"Unknown Item"`. -/
theorem C8_name_fallbacks :
    (∀ (fs pfs : List (String × JVal)),
      jfind fs "properties" = some (jobj pfs) →
      jfind pfs "firstname" = none → jfind pfs "lastname" = none →
      jfind pfs "email" = none →
      (create_integration_item_metadata_object_hubspot (jobj fs) "contact").map
        (fun it => it.name) = .ok (jstr "Unknown Contact")) ∧
    (∀ (fs pfs : List (String × JVal)),
      jfind fs "properties" = some (jobj pfs) →
      (∀ p ∈ pfs, ∃ vf, p.2 = jobj vf ∧ jfind vf "type" ≠ some (jstr "title")) →
      ((jfind fs "object" = none →
        (create_integration_item_metadata_object_notion (jobj fs)).map
          (fun it => it.name) = .ok (jstr "Unknown Item")) ∧
       (∀ t, jfind fs "object" = some (jstr t) →
        (create_integration_item_metadata_object_notion (jobj fs)).map
          (fun it => it.name) = .ok (jstr (pyCapitalize t ++ " Item"))))) ∧
    (∀ (fs : List (String × JVal)),
      jfind fs "properties" = none → jfind fs "object" = none →
      (create_integration_item_metadata_object_notion (jobj fs)).map
        (fun it => it.name) = .ok (jstr "Unknown Item")) := by
  refine ⟨fun fs pfs h1 h2 h3 h4 => ?_,
    fun fs pfs h1 h2 => ⟨fun h3 => ?_, fun t h3 => ?_⟩,
    fun fs h1 h2 => ?_⟩
  · simp [create_integration_item_metadata_object_hubspot, pyGet,
      Bind.bind, Except.bind, pure, Except.pure, pyStr, pyStrip,
      h1, h2, h3, h4]
    try rfl
  · have hloop := notionNameLoop_noTitle (pfs.map (fun p => p.2))
      (by intro w hw; obtain ⟨p, hp, rfl⟩ := List.mem_map.1 hw; exact h2 p hp)
    simp [create_integration_item_metadata_object_notion, pyGet,
      Bind.bind, Except.bind, pure, Except.pure, truthy, pyCapitalize,
      h1, h3, hloop]
    try rfl
  · have hloop := notionNameLoop_noTitle (pfs.map (fun p => p.2))
      (by intro w hw; obtain ⟨p, hp, rfl⟩ := List.mem_map.1 hw; exact h2 p hp)
    simp [create_integration_item_metadata_object_notion, pyGet,
      Bind.bind, Except.bind, pure, Except.pure, truthy,
      h1, h3, hloop]
    try rfl
  · simp [create_integration_item_metadata_object_notion, pyGet,
      Bind.bind, Except.bind, pure, Except.pure, truthy, pyCapitalize,
      h1, h2]
    try rfl

/-- Witness for C8 at concrete inputs. -/
theorem C8_name_fallbacks_witness :
    (create_integration_item_metadata_object_hubspot
        (jobj [("id", jstr "1"), ("properties", jobj [])]) "contact").map
      (fun it => it.name) = .ok (jstr "Unknown Contact") ∧
    (create_integration_item_metadata_object_notion
        (jobj [("id", jstr "1"),
               ("properties", jobj [("p", jobj [("type", jstr "rich_text")])])])).map
      (fun it => it.name) = .ok (jstr "Unknown Item") ∧
    (create_integration_item_metadata_object_notion
        (jobj [("object", jstr "database"),
               ("properties", jobj [("p", jobj [("type", jstr "rich_text")])])])).map
      (fun it => it.name) = .ok (jstr (pyCapitalize "database" ++ " Item")) ∧
    (create_integration_item_metadata_object_notion (jobj [])).map
      (fun it => it.name) = .ok (jstr "Unknown Item") :=
  ⟨C8_name_fallbacks.1 [("id", jstr "1"), ("properties", jobj [])] [] rfl rfl rfl rfl,
   (C8_name_fallbacks.2.1
      [("id", jstr "1"),
       ("properties", jobj [("p", jobj [("type", jstr "rich_text")])])]
      [("p", jobj [("type", jstr "rich_text")])] rfl
      (by intro p hp
          refine ⟨[("type", jstr "rich_text")], ?_, fun hh => by simp [jfind] at hh⟩
          simp at hp; simp [hp])).1 rfl,
   (C8_name_fallbacks.2.1
      [("object", jstr "database"),
       ("properties", jobj [("p", jobj [("type", jstr "rich_text")])])]
      [("p", jobj [("type", jstr "rich_text")])] rfl
      (by intro p hp
          refine ⟨[("type", jstr "rich_text")], ?_, fun hh => by simp [jfind] at hh⟩
          simp at hp; simp [hp])).2 "database" rfl,
   C8_name_fallbacks.2.2 [] rfl rfl⟩

/-- A category fetch "fails" when it raises a network exception or
returns a non-success status. -/
def fetchFailed (h : HttpResult) : Prop :=
  ∀ r, h = .ok r → r.status ≠ 200

/-- Sequential normalization of a whole category: the items in order, or
the first normalizer exception. -/
def normalizeAll (t : String) : List JVal → Except PyExc (List IntegrationItem)
  | [] => pure []
  | r :: rest => do
    let it ← create_integration_item_metadata_object_hubspot r t
    let more ← normalizeAll t rest
    pure (it :: more)

/-- The result loop only ever appends: the incoming accumulator is a
prefix of the outcome. -/
theorem appendItems_acc (t : String) (a b : List IntegrationItem)
    (rs : List JVal) :
    appendItems t (a ++ b) rs = a ++ appendItems t b rs := by
  induction rs generalizing b with
  | nil => rfl
  | cons r rest ih =>
    rcases hc : create_integration_item_metadata_object_hubspot r t with e | it
    · simp [appendItems, hc]
    · simp only [appendItems, hc]
      rw [List.append_assoc]
      exact ih (b ++ [it])

/-- When every object of a category normalizes successfully, the result
loop produces exactly the normalized items in order. -/
theorem appendItems_normalizeAll (t : String) (rs : List JVal)
    (items : List IntegrationItem)
    (h : normalizeAll t rs = .ok items) :
    appendItems t [] rs = items := by
  induction rs generalizing items with
  | nil =>
    simp only [normalizeAll, pure, Except.pure] at h
    cases h
    rfl
  | cons r rest ih =>
    rcases hc : create_integration_item_metadata_object_hubspot r t with e | it
    · simp [normalizeAll, hc, Bind.bind, Except.bind] at h
    · rcases hrest : normalizeAll t rest with e | its
      · simp [normalizeAll, hc, hrest, Bind.bind, Except.bind] at h
      · simp only [normalizeAll, hc, hrest, Bind.bind, Except.bind, pure,
          Except.pure] at h
        cases h
        have hacc : appendItems t ([it] ++ []) rest = [it] ++ appendItems t [] rest :=
          appendItems_acc t [it] [] rest
        simp only [List.append_nil] at hacc
        simp [appendItems, hc, hacc, ih its hrest]

/-- A failed category contributes nothing. -/
theorem runCategoryHubspot_failed (acc : List IntegrationItem)
    (resp : HttpResult) (t : String) (h : fetchFailed resp) :
    runCategoryHubspot acc resp t = acc := by
  rcases resp with e | r
  · rfl
  · have := h r rfl
    simp [runCategoryHubspot, this]

/-- Each category appends after the previous ones. -/
theorem runCategoryHubspot_acc (acc : List IntegrationItem)
    (resp : HttpResult) (t : String) :
    runCategoryHubspot acc resp t = acc ++ runCategoryHubspot [] resp t := by
  rcases resp with e | r
  · simp [runCategoryHubspot]
  · simp only [runCategoryHubspot]
    split
    · rcases r.body with _ | _ | _ | _ | _ | fs <;>
        simp [runCategoryHubspot]
      rcases (jfind fs "results").getD (jarr []) with _ | _ | _ | _ | rs | _ <;>
        simp [runCategoryHubspot]
      exact (by simpa using appendItems_acc t acc [] rs)
    · simp

/-- C5.  In `get_items_hubspot`, a failing contacts fetch together with a
succeeding companies fetch (and a failing deals fetch) yields exactly the
normalized company objects, without raising; and in general the result is
the concatenation of the three categories' contributions in fetch order
(contacts, companies, deals). -/
theorem C5_hubspot_category_fault_isolation :
    (∀ (env : HubspotEnv) (fs bfs : List (String × JVal)) (tok : JVal)
       (rs : List JVal) (items : List IntegrationItem),
      jfind fs "access_token" = some tok → truthy tok = true →
      fetchFailed env.contacts →
      env.companies = .ok ⟨200, jobj bfs⟩ →
      jfind bfs "results" = some (jarr rs) →
      fetchFailed env.deals →
      normalizeAll "company" rs = .ok items →
      get_items_hubspot env (.decoded (jobj fs)) = .ok items) ∧
    (∀ (env : HubspotEnv) (fs : List (String × JVal)) (tok : JVal),
      jfind fs "access_token" = some tok → truthy tok = true →
      get_items_hubspot env (.decoded (jobj fs)) =
        .ok (runCategoryHubspot [] env.contacts "contact" ++
             runCategoryHubspot [] env.companies "company" ++
             runCategoryHubspot [] env.deals "deal")) := by
  constructor
  · intro env fs bfs tok rs items h1 h2 h3 h4 h5 h6 h7
    have hc := runCategoryHubspot_failed [] env.contacts "contact" h3
    have hcomp : runCategoryHubspot [] env.companies "company" = items := by
      rw [h4]
      simp [runCategoryHubspot, h5, appendItems_normalizeAll "company" rs items h7]
    have hd := runCategoryHubspot_failed items env.deals "deal" h6
    simp [get_items_hubspot, credDecode, pyGet, Bind.bind, Except.bind,
      pure, Except.pure, h1, h2, hc, hcomp, hd]
  · intro env fs tok h1 h2
    simp [get_items_hubspot, credDecode, pyGet, Bind.bind, Except.bind,
      pure, Except.pure, h1, h2,
      runCategoryHubspot_acc (runCategoryHubspot [] env.contacts "contact")
        env.companies "company",
      runCategoryHubspot_acc
        (runCategoryHubspot [] env.contacts "contact" ++
          runCategoryHubspot [] env.companies "company") env.deals "deal",
      List.append_assoc]

/-- Witness for C5 at a concrete environment: contacts answer 500,
companies answer 200 with an empty result list, deals raise. -/
theorem C5_hubspot_category_fault_isolation_witness :
    get_items_hubspot
      ⟨.ok ⟨500, jnull⟩, .ok ⟨200, jobj [("results", jarr [])]⟩, .error "boom"⟩
      (.decoded (jobj [("access_token", jstr "t")])) = .ok [] ∧
    get_items_hubspot
      ⟨.ok ⟨500, jnull⟩, .ok ⟨200, jobj [("results", jarr [])]⟩, .error "boom"⟩
      (.decoded (jobj [("access_token", jstr "t")])) =
      .ok (runCategoryHubspot [] (.ok ⟨500, jnull⟩) "contact" ++
           runCategoryHubspot [] (.ok ⟨200, jobj [("results", jarr [])]⟩) "company" ++
           runCategoryHubspot [] (.error "boom") "deal") :=
  ⟨C5_hubspot_category_fault_isolation.1
      ⟨.ok ⟨500, jnull⟩, .ok ⟨200, jobj [("results", jarr [])]⟩, .error "boom"⟩
      [("access_token", jstr "t")] [("results", jarr [])] (jstr "t") [] []
      rfl rfl (fun r hr => by cases hr; decide) rfl rfl
      (fun r hr => by cases hr) rfl,
   C5_hubspot_category_fault_isolation.2
      ⟨.ok ⟨500, jnull⟩, .ok ⟨200, jobj [("results", jarr [])]⟩, .error "boom"⟩
      [("access_token", jstr "t")] (jstr "t") rfl rfl⟩

/-! ### Round-trip lemmas for the state token (claim C3) -/

theorem charSextet_sextetChar (n : Nat) (h : n < 64) :
    charSextet (sextetChar n) = some n := by
  revert n h; decide

theorem sextetChar_ne_pad (n : Nat) (h : n < 64) : sextetChar n ≠ '=' := by
  revert n h; decide

/-- Decoding inverts encoding on byte lists. -/
theorem b64d_b64e (bs : List Nat) (h : ∀ b ∈ bs, b < 256) :
    b64d (b64e bs) = some bs := by
  induction bs using b64e.induct with
  | case1 => rfl
  | case2 b1 =>
    have hb1 : b1 < 256 := h b1 (by simp)
    have e1 := charSextet_sextetChar (b1 / 4) (by omega)
    have e2 := charSextet_sextetChar (b1 % 4 * 16) (by omega)
    simp [b64e, b64d, e1, e2, Bind.bind, Option.bind]
    omega
  | case3 b1 b2 =>
    have hb1 : b1 < 256 := h b1 (by simp)
    have hb2 : b2 < 256 := h b2 (by simp)
    have e1 := charSextet_sextetChar (b1 / 4) (by omega)
    have e2 := charSextet_sextetChar (b1 % 4 * 16 + b2 / 16) (by omega)
    have e3 := charSextet_sextetChar (b2 % 16 * 4) (by omega)
    have n4 := sextetChar_ne_pad (b2 % 16 * 4) (by omega)
    simp [b64e, b64d, e1, e2, e3, n4, Bind.bind, Option.bind]
    omega
  | case4 b1 b2 b3 rest ih =>
    have hb1 : b1 < 256 := h b1 (by simp)
    have hb2 : b2 < 256 := h b2 (by simp)
    have hb3 : b3 < 256 := h b3 (by simp)
    have hrest := ih (fun b hb => h b (by simp [hb]))
    have e1 := charSextet_sextetChar (b1 / 4) (by omega)
    have e2 := charSextet_sextetChar (b1 % 4 * 16 + b2 / 16) (by omega)
    have e3 := charSextet_sextetChar (b2 % 16 * 4 + b3 / 64) (by omega)
    have e4 := charSextet_sextetChar (b3 % 64) (by omega)
    have n3 := sextetChar_ne_pad (b2 % 16 * 4 + b3 / 64) (by omega)
    have n4 := sextetChar_ne_pad (b3 % 64) (by omega)
    simp [b64e, b64d, e1, e2, e3, e4, n3, n4, hrest, Bind.bind, Option.bind]
    omega

theorem hexVal_hexDigitChar (n : Nat) (h : n < 16) :
    hexVal (hexDigitChar n) = some n := by
  revert n h; decide

theorem hexDigitChar_ascii (n : Nat) (h : n < 16) :
    (hexDigitChar n).toNat < 128 := by
  revert n h; decide

/-- Parsing a string-literal body inverts JSON escaping, for ASCII
content. -/
theorem parseStrBody_escBody (l : List Char) (rest : List Char)
    (h : ∀ c ∈ l, c.toNat < 128) :
    parseStrBody (escBody l ++ '"' :: rest) = some (l, rest) := by
  induction l with
  | nil =>
    simp only [escBody, List.map_nil, List.flatten_nil, List.nil_append]
    rw [parseStrBody.eq_def]
    simp
  | cons c l ih =>
    have hc : c.toNat < 128 := h c (by simp)
    have ihl := ih (fun d hd => h d (by simp [hd]))
    have hesc : escBody (c :: l) = escChar c ++ escBody l := by simp [escBody]
    rw [hesc, List.append_assoc]
    by_cases h1 : c = '"'
    · subst h1
      rw [show escChar '"' = ['\\', '"'] from rfl]
      simp only [List.cons_append, List.nil_append]
      rw [parseStrBody.eq_def]
      simp [ihl]
    by_cases h2 : c = '\\'
    · subst h2
      rw [show escChar '\\' = ['\\', '\\'] from rfl]
      simp only [List.cons_append, List.nil_append]
      rw [parseStrBody.eq_def]
      simp [ihl]
    by_cases h3 : c = Char.ofNat 10
    · subst h3
      rw [show escChar (Char.ofNat 10) = ['\\', 'n'] from rfl]
      simp only [List.cons_append, List.nil_append]
      rw [parseStrBody.eq_def]
      simp [ihl]
    by_cases h4 : c = Char.ofNat 13
    · subst h4
      rw [show escChar (Char.ofNat 13) = ['\\', 'r'] from rfl]
      simp only [List.cons_append, List.nil_append]
      rw [parseStrBody.eq_def]
      simp [ihl]
    by_cases h5 : c = Char.ofNat 9
    · subst h5
      rw [show escChar (Char.ofNat 9) = ['\\', 't'] from rfl]
      simp only [List.cons_append, List.nil_append]
      rw [parseStrBody.eq_def]
      simp [ihl]
    by_cases h6 : c = Char.ofNat 8
    · subst h6
      rw [show escChar (Char.ofNat 8) = ['\\', 'b'] from rfl]
      simp only [List.cons_append, List.nil_append]
      rw [parseStrBody.eq_def]
      simp [ihl]
    by_cases h7 : c = Char.ofNat 12
    · subst h7
      rw [show escChar (Char.ofNat 12) = ['\\', 'f'] from rfl]
      simp only [List.cons_append, List.nil_append]
      rw [parseStrBody.eq_def]
      simp [ihl]
    by_cases h8 : c.toNat < 32 ∨ 127 ≤ c.toNat
    · have hesc2 : escChar c =
          ['\\', 'u', '0', '0', hexDigitChar (c.toNat / 16),
           hexDigitChar (c.toNat % 16)] := by
        simp [escChar, h1, h2, h3, h4, h5, h6, h7, h8]
      have eh1 := hexVal_hexDigitChar (c.toNat / 16) (by omega)
      have eh2 := hexVal_hexDigitChar (c.toNat % 16) (by omega)
      have harith : ((0 * 16 + 0) * 16 + c.toNat / 16) * 16 + c.toNat % 16 =
          c.toNat := by omega
      rw [hesc2]
      simp only [List.cons_append, List.nil_append]
      rw [parseStrBody.eq_def]
      have h0 : hexVal '0' = some 0 := rfl
      simp only [h0, eh1, eh2]
      simp [ihl]
      have harith2 : c.toNat / 16 * 16 + c.toNat % 16 = c.toNat := by omega
      rw [harith2, Char.ofNat_toNat]
    · have hesc2 : escChar c = [c] := by
        simp [escChar, h1, h2, h3, h4, h5, h6, h7, h8]
      rw [hesc2]
      simp only [List.cons_append, List.nil_append]
      rw [parseStrBody.eq_def]
      simp [h1, h2, ihl]

theorem escChar_ascii (c : Char) (hc : c.toNat < 128) :
    ∀ d ∈ escChar c, d.toNat < 128 := by
  intro d hd
  by_cases h1 : c = '"'
  · subst h1; simp [escChar] at hd; rcases hd with rfl | rfl <;> decide
  by_cases h2 : c = '\\'
  · subst h2; simp [escChar] at hd; rcases hd with rfl | rfl <;> decide
  by_cases h3 : c = Char.ofNat 10
  · subst h3; simp [escChar] at hd; rcases hd with rfl | rfl <;> decide
  by_cases h4 : c = Char.ofNat 13
  · subst h4; simp [escChar] at hd; rcases hd with rfl | rfl <;> decide
  by_cases h5 : c = Char.ofNat 9
  · subst h5; simp [escChar] at hd; rcases hd with rfl | rfl <;> decide
  by_cases h6 : c = Char.ofNat 8
  · subst h6; simp [escChar] at hd; rcases hd with rfl | rfl <;> decide
  by_cases h7 : c = Char.ofNat 12
  · subst h7; simp [escChar] at hd; rcases hd with rfl | rfl <;> decide
  by_cases h8 : c.toNat < 32 ∨ 127 ≤ c.toNat
  · simp [escChar, h1, h2, h3, h4, h5, h6, h7, h8] at hd
    rcases hd with rfl | rfl | rfl | rfl | rfl
    all_goals
      first
        | decide
        | exact hexDigitChar_ascii (c.toNat / 16) (by omega)
        | exact hexDigitChar_ascii (c.toNat % 16) (by omega)
  · simp [escChar, h1, h2, h3, h4, h5, h6, h7, h8] at hd
    subst hd; exact hc

theorem escBody_ascii (l : List Char) (h : ∀ c ∈ l, c.toNat < 128) :
    ∀ d ∈ escBody l, d.toNat < 128 := by
  intro d hd
  simp only [escBody, List.mem_flatten, List.mem_map] at hd
  obtain ⟨L, ⟨c, hcl, rfl⟩, hdL⟩ := hd
  exact escChar_ascii c (h c hcl) d hdL

theorem ascii_append {A B : List Char} (hA : ∀ d ∈ A, d.toNat < 128)
    (hB : ∀ d ∈ B, d.toNat < 128) : ∀ d ∈ A ++ B, d.toNat < 128 := by
  intro d hd
  rcases List.mem_append.1 hd with hm | hm
  · exact hA d hm
  · exact hB d hm

theorem ascii_cons {c : Char} {A : List Char} (hc : c.toNat < 128)
    (hA : ∀ d ∈ A, d.toNat < 128) : ∀ d ∈ c :: A, d.toNat < 128 := by
  intro d hd
  rcases List.mem_cons.1 hd with rfl | hm
  · exact hc
  · exact hA d hm

/-- `json.dumps` of the state payload, laid out member by member. -/
theorem dumpChars_stateObj (t u o : String) :
    dumpChars (stateObj t u o) =
      lbrace :: '"' :: (escBody "state".data ++ ('"' :: ':' :: ' ' :: '"' ::
        (escBody t.data ++ ('"' :: ',' :: ' ' :: '"' :: (escBody "user_id".data ++
        ('"' :: ':' :: ' ' :: '"' :: (escBody u.data ++ ('"' :: ',' :: ' ' :: '"' ::
        (escBody "org_id".data ++ ('"' :: ':' :: ' ' :: '"' ::
        (escBody o.data ++ ('"' :: rbrace :: [])))))))))))) := by
  simp [stateObj, dumpChars, dumpFields]

theorem skipWs_quote (X : List Char) : skipWs ('"' :: X) = '"' :: X := by
  simp [skipWs, List.dropWhile, isJsonWs]

theorem skipWs_space_quote (X : List Char) :
    skipWs (' ' :: '"' :: X) = '"' :: X := by
  simp [skipWs, List.dropWhile, isJsonWs]

theorem skipWs_not_ws (c : Char) (X : List Char) (h : isJsonWs c = false) :
    skipWs (c :: X) = c :: X := by
  simp [skipWs, List.dropWhile, h]

theorem skipWs_ws (c : Char) (X : List Char) (h : isJsonWs c = true) :
    skipWs (c :: X) = skipWs X := by
  simp [skipWs, List.dropWhile, h]

/-- Parsing one `"key": "value"` member followed by a comma. -/
theorem parseFields_member_comma (f : Nat) (k v rest : List Char) (cs : List Char)
    (hk : ∀ c ∈ k, c.toNat < 128) (hv : ∀ c ∈ v, c.toNat < 128)
    (hcs : skipWs cs = '"' :: (escBody k ++ ('"' :: ':' :: ' ' :: '"' ::
      (escBody v ++ ('"' :: ',' :: rest))))) :
    parseFields (f + 2) cs =
      (parseFields (f + 1) rest).map
        (fun p => ((String.mk k, jstr (String.mk v)) :: p.1, p.2)) := by
  have hpk := parseStrBody_escBody k
    (':' :: ' ' :: '"' :: (escBody v ++ ('"' :: ',' :: rest))) hk
  have hpv := parseStrBody_escBody v (',' :: rest) hv
  simp [parseFields, parseVal, hcs, hpk, hpv, skipWs_not_ws, skipWs_ws,
    isJsonWs, rbrace, lbrace]

/-- Parsing the final `"key": "value"` member up to the closing brace. -/
theorem parseFields_member_close (f : Nat) (k v rest : List Char) (cs : List Char)
    (hk : ∀ c ∈ k, c.toNat < 128) (hv : ∀ c ∈ v, c.toNat < 128)
    (hcs : skipWs cs = '"' :: (escBody k ++ ('"' :: ':' :: ' ' :: '"' ::
      (escBody v ++ ('"' :: rbrace :: rest))))) :
    parseFields (f + 2) cs = some ([(String.mk k, jstr (String.mk v))], rest) := by
  have hpk := parseStrBody_escBody k
    (':' :: ' ' :: '"' :: (escBody v ++ ('"' :: rbrace :: rest))) hk
  have hpv := parseStrBody_escBody v (rbrace :: rest) hv
  have hr1 : rbrace ≠ ',' := by decide
  have hq1 : ('"' : Char) ≠ lbrace := by decide
  have w1 : isJsonWs ':' = false := by decide
  have w2 : isJsonWs ',' = false := by decide
  have w3 : isJsonWs '"' = false := by decide
  have w4 : isJsonWs ' ' = true := by decide
  have w5 : isJsonWs rbrace = false := by decide
  simp [parseFields, parseVal, hcs, hpk, hpv, skipWs_not_ws, skipWs_ws,
    hr1, hq1, w1, w2, w3, w4, w5]

/-- Parsing the serialized state payload recovers it exactly. -/
theorem parseVal_dumps_stateObj (f : Nat) (t u o : String)
    (ht : ∀ c ∈ t.data, c.toNat < 128) (hu : ∀ c ∈ u.data, c.toNat < 128)
    (ho : ∀ c ∈ o.data, c.toNat < 128) :
    parseVal (f + 5) (dumpChars (stateObj t u o)) = some (stateObj t u o, []) := by
  have hks : ∀ c ∈ "state".data, c.toNat < 128 := by decide
  have hku : ∀ c ∈ "user_id".data, c.toNat < 128 := by decide
  have hko : ∀ c ∈ "org_id".data, c.toNat < 128 := by decide
  have m3 := parseFields_member_close f "org_id".data o.data []
    (' ' :: '"' :: (escBody "org_id".data ++ ('"' :: ':' :: ' ' :: '"' ::
      (escBody o.data ++ ('"' :: rbrace :: [])))))
    hko ho (skipWs_space_quote _)
  have m2 := parseFields_member_comma (f + 1) "user_id".data u.data
    (' ' :: '"' :: (escBody "org_id".data ++ ('"' :: ':' :: ' ' :: '"' ::
      (escBody o.data ++ ('"' :: rbrace :: [])))))
    (' ' :: '"' :: (escBody "user_id".data ++ ('"' :: ':' :: ' ' :: '"' ::
      (escBody u.data ++ ('"' :: ',' :: ' ' :: '"' :: (escBody "org_id".data ++
        ('"' :: ':' :: ' ' :: '"' :: (escBody o.data ++ ('"' :: rbrace :: [])))))))))
    hku hu (skipWs_space_quote _)
  simp only [show f + 1 + 1 = f + 2 from rfl] at m2
  rw [m3] at m2
  simp only [Option.map_some'] at m2
  have m1 := parseFields_member_comma (f + 2) "state".data t.data
    (' ' :: '"' :: (escBody "user_id".data ++ ('"' :: ':' :: ' ' :: '"' ::
      (escBody u.data ++ ('"' :: ',' :: ' ' :: '"' :: (escBody "org_id".data ++
        ('"' :: ':' :: ' ' :: '"' :: (escBody o.data ++ ('"' :: rbrace :: [])))))))))
    ('"' :: (escBody "state".data ++ ('"' :: ':' :: ' ' :: '"' ::
      (escBody t.data ++ ('"' :: ',' :: ' ' :: '"' :: (escBody "user_id".data ++
        ('"' :: ':' :: ' ' :: '"' :: (escBody u.data ++ ('"' :: ',' :: ' ' :: '"' ::
          (escBody "org_id".data ++ ('"' :: ':' :: ' ' :: '"' ::
            (escBody o.data ++ ('"' :: rbrace :: [])))))))))))))
    hks ht (skipWs_quote _)
  simp only [show f + 2 + 1 = f + 1 + 2 from rfl] at m1
  rw [m2] at m1
  simp only [Option.map_some'] at m1
  rw [dumpChars_stateObj]
  have hq2 : ('"' : Char) ≠ rbrace := by decide
  have hq3 : ('"' : Char) ≠ lbrace := by decide
  have hq4 : lbrace ≠ '"' := by decide
  have wl : isJsonWs lbrace = false := by decide
  simp [parseVal, skipWs_not_ws lbrace _ wl, skipWs_quote, hq2, hq3, hq4]
  simp only [show f + 4 = f + 2 + 2 from rfl]
  rw [m1]
  simp [stateObj]

/-- The serialized state payload is pure ASCII when its parts are. -/
theorem dumpChars_stateObj_ascii (t u o : String)
    (ht : ∀ c ∈ t.data, c.toNat < 128) (hu : ∀ c ∈ u.data, c.toNat < 128)
    (ho : ∀ c ∈ o.data, c.toNat < 128) :
    ∀ d ∈ dumpChars (stateObj t u o), d.toNat < 128 := by
  rw [dumpChars_stateObj]
  refine ascii_cons (by decide) (ascii_cons (by decide)
    (ascii_append (escBody_ascii _ (by decide)) ?_))
  refine ascii_cons (by decide) (ascii_cons (by decide) (ascii_cons (by decide)
    (ascii_cons (by decide) (ascii_append (escBody_ascii _ ht) ?_))))
  refine ascii_cons (by decide) (ascii_cons (by decide) (ascii_cons (by decide)
    (ascii_cons (by decide) (ascii_append (escBody_ascii _ (by decide)) ?_))))
  refine ascii_cons (by decide) (ascii_cons (by decide) (ascii_cons (by decide)
    (ascii_cons (by decide) (ascii_append (escBody_ascii _ hu) ?_))))
  refine ascii_cons (by decide) (ascii_cons (by decide) (ascii_cons (by decide)
    (ascii_cons (by decide) (ascii_append (escBody_ascii _ (by decide)) ?_))))
  refine ascii_cons (by decide) (ascii_cons (by decide) (ascii_cons (by decide)
    (ascii_cons (by decide) (ascii_append (escBody_ascii _ ho) ?_))))
  exact ascii_cons (by decide) (ascii_cons (by decide)
    (fun d hd => absurd hd (List.not_mem_nil d)))

/-- `json.loads` inverts `json.dumps` on the state payload. -/
theorem jsonLoads_dumps_stateObj (t u o : String)
    (ht : ∀ c ∈ t.data, c.toNat < 128) (hu : ∀ c ∈ u.data, c.toNat < 128)
    (ho : ∀ c ∈ o.data, c.toNat < 128) :
    jsonLoads (jsonDumps (stateObj t u o)) = some (stateObj t u o) := by
  have hlen : 4 ≤ (dumpChars (stateObj t u o)).length := by
    rw [dumpChars_stateObj]
    simp [List.length_append]
    omega
  obtain ⟨f, hf⟩ : ∃ f, (dumpChars (stateObj t u o)).length + 1 = f + 5 :=
    ⟨(dumpChars (stateObj t u o)).length - 4, by omega⟩
  have hp := parseVal_dumps_stateObj f t u o ht hu ho
  unfold jsonLoads jsonDumps
  rw [show (String.mk (dumpChars (stateObj t u o))).data =
        dumpChars (stateObj t u o) from rfl]
  rw [hf, hp]
  simp [skipWs]

/-- The callback-side decode inverts the initiator-side encode of the
state payload. -/
theorem decodeState_encode_state (token user_id org_id : String)
    (htok : ∀ c ∈ token.data, c.toNat < 128)
    (huid : ∀ c ∈ user_id.data, c.toNat < 128)
    (hoid : ∀ c ∈ org_id.data, c.toNat < 128) :
    decodeState (encode_state token user_id org_id) =
      some (stateObj token user_id org_id) := by
  have hascii := dumpChars_stateObj_ascii token user_id org_id htok huid hoid
  unfold decodeState encode_state
  rw [show (String.mk (b64e (strBytes (jsonDumps (stateObj token user_id org_id))))).data =
        b64e (strBytes (jsonDumps (stateObj token user_id org_id))) from rfl]
  have hbytes : ∀ b ∈ strBytes (jsonDumps (stateObj token user_id org_id)), b < 256 := by
    intro b hb
    unfold strBytes jsonDumps at hb
    rw [show (String.mk (dumpChars (stateObj token user_id org_id))).data =
          dumpChars (stateObj token user_id org_id) from rfl] at hb
    obtain ⟨c, hc, rfl⟩ := List.mem_map.1 hb
    have := hascii c hc
    omega
  rw [b64d_b64e _ hbytes]
  have hdec : asciiDecode (strBytes (jsonDumps (stateObj token user_id org_id))) =
      some (jsonDumps (stateObj token user_id org_id)) := by
    unfold asciiDecode strBytes jsonDumps
    rw [show (String.mk (dumpChars (stateObj token user_id org_id))).data =
          dumpChars (stateObj token user_id org_id) from rfl]
    have hall : ((dumpChars (stateObj token user_id org_id)).map Char.toNat).all
        (fun b => b < 128) = true := by
      rw [List.all_eq_true]
      intro b hb
      obtain ⟨c, hc, rfl⟩ := List.mem_map.1 hb
      simpa using hascii c hc
    rw [if_pos hall]
    congr 1
    rw [List.map_map]
    have hid : ∀ c ∈ dumpChars (stateObj token user_id org_id),
        (Char.ofNat ∘ Char.toNat) c = c := fun c _ => Char.ofNat_toNat c
    rw [List.map_congr_left hid]
    simp
  rw [Option.some_bind, hdec, Option.some_bind]
  exact jsonLoads_dumps_stateObj token user_id org_id htok huid hoid

/-- C3.  For all ASCII (user_id, org_id) pairs (and any random token),
the `state` value produced by the authorization initiators via
`encode_state` decodes — url-safe base64, then JSON — back to exactly the
payload object, whose `user_id` and `org_id` fields are the supplied
identifiers. -/
theorem C3_state_roundtrip (token user_id org_id : String)
    (htok : ∀ c ∈ token.data, c.toNat < 128)
    (huid : ∀ c ∈ user_id.data, c.toNat < 128)
    (hoid : ∀ c ∈ org_id.data, c.toNat < 128) :
    decodeState (encode_state token user_id org_id) =
      some (stateObj token user_id org_id) ∧
    jfind [("state", jstr token), ("user_id", jstr user_id),
           ("org_id", jstr org_id)] "user_id" = some (jstr user_id) ∧
    jfind [("state", jstr token), ("user_id", jstr user_id),
           ("org_id", jstr org_id)] "org_id" = some (jstr org_id) := by
  refine ⟨decodeState_encode_state token user_id org_id htok huid hoid, ?_, ?_⟩ <;>
    simp [jfind]

/-- Witness for C3 at concrete identifiers. -/
theorem C3_state_roundtrip_witness :
    decodeState (encode_state "T0ken" "user1" "org1") =
      some (stateObj "T0ken" "user1" "org1") :=
  (C3_state_roundtrip "T0ken" "user1" "org1" (by decide) (by decide) (by decide)).1
